import Mathlib

/-!
# Verification of the emergencias_app record store, query engine and exporters

This file gives a shallow embedding, in Lean 4, of the data model and the
request handlers of the `emergencias_app` Flask application (`app.py`,
`models.py`) and proves the stated properties of its specification against
that embedding.

Conventions of the embedding:
* Database rows become Lean structures; the database session becomes an
  explicit `Store` value threaded through the operations.
* SQLAlchemy queries (`filter`, `filter_by ... first()`, `order_by ... all()`)
  become `List.filter`, `List.find?` and `List.insertionSort` over the store's
  row list.
* Python form input (`request.form.get(name)`) becomes `Option String`;
  a date field that goes through `dateutil.parser.parse` is represented by
  its parse outcome (`DateInput`), since the date parser itself is an
  external library.
* Python `int(...)` on strings is modelled by `pyInt` (optional sign followed
  by digits, surrounding whitespace ignored); Python machine-independent
  integers are `Int`.
-/

/-- Calendar date `(year, month, day)`, compared lexicographically exactly as
Python `datetime.date` compares. -/
structure Date where
  year : Nat
  month : Nat
  day : Nat
deriving DecidableEq, Repr

/-- Lexicographic order on dates, as Python compares `datetime.date`. -/
def Date.le (a b : Date) : Prop :=
  a.year < b.year ∨
    (a.year = b.year ∧ (a.month < b.month ∨ (a.month = b.month ∧ a.day ≤ b.day)))

instance : LE Date := ⟨Date.le⟩

theorem Date.le_def (a b : Date) :
    a ≤ b ↔ (a.year < b.year ∨
      (a.year = b.year ∧ (a.month < b.month ∨ (a.month = b.month ∧ a.day ≤ b.day)))) :=
  Iff.rfl

instance Date.decLE : ∀ a b : Date, Decidable (a ≤ b) := fun a b =>
  decidable_of_iff _ (Date.le_def a b).symm

instance : LinearOrder Date where
  le_refl a := by rw [Date.le_def]; omega
  le_trans a b c hab hbc := by
    rw [Date.le_def] at *
    omega
  le_antisymm a b hab hba := by
    rw [Date.le_def] at hab hba
    have hy : a.year = b.year ∧ a.month = b.month ∧ a.day = b.day := by omega
    cases a; cases b
    simp only [Date.mk.injEq]
    exact ⟨hy.1, hy.2.1, hy.2.2⟩
  le_total a b := by
    rw [Date.le_def, Date.le_def]
    omega
  decidableLE := Date.decLE

/-- One row of the `emergency_records` table (`models.EmergencyRecord`). -/
structure EmergencyRecord where
  id : Nat
  fecha : Date
  hospital : String
  atenciones : Int
  ingresos : Int
  alta_voluntario : Int
  traslados : Int
  motivo_traslado : String
  hospital_referencia : String
  defunciones : Int
  eventualidades : String
deriving DecidableEq, Repr

/-- One row of the `hospitals` table (`models.Hospital`). -/
structure Hospital where
  id : Nat
  nombre : String
  activo : Bool
deriving DecidableEq, Repr

/-- The authenticated actor (`current_user`): role flag and assigned
hospital, the only parts of `models.User` the record and query operations
consult. -/
structure Actor where
  is_admin : Bool
  hospital : String
deriving DecidableEq, Repr

/-- The persistent state the handlers act on: the `emergency_records` and
`hospitals` tables, plus the auto-increment counter for record ids. -/
structure Store where
  records : List EmergencyRecord
  hospitals : List Hospital
  nextId : Nat
deriving Repr

/-- Whitespace characters removed by Python `str.strip()`. -/
def isSpaceChar (c : Char) : Bool :=
  c = ' ' || c = '\t' || c = '\n' || c = '\x0d' || c = '\x0b' || c = '\x0c'

/-- Remove leading and trailing whitespace from a character list. -/
def stripChars (cs : List Char) : List Char :=
  ((cs.dropWhile isSpaceChar).reverse.dropWhile isSpaceChar).reverse

/-- Model of Python `str.strip()` with no argument. -/
def pyStrip (s : String) : String :=
  String.mk (stripChars s.data)

/-- Numeric value of a digit string, most significant first. -/
def digitsVal (cs : List Char) : Nat :=
  cs.foldl (fun n c => n * 10 + (c.toNat - '0'.toNat)) 0

/-- Model of Python `int(s)` on a string: surrounding whitespace ignored,
optional single sign, then a nonempty run of digits; anything else raises
(`none`). -/
def pyInt (s : String) : Option Int :=
  match (pyStrip s).data with
  | '-' :: rest =>
      if rest ≠ [] ∧ rest.all Char.isDigit then some (-(digitsVal rest : Int)) else none
  | '+' :: rest =>
      if rest ≠ [] ∧ rest.all Char.isDigit then some (digitsVal rest : Int) else none
  | rest =>
      if rest ≠ [] ∧ rest.all Char.isDigit then some (digitsVal rest : Int) else none

/-- The `to_int` helper nested in the `nuevo` handler (`app.py`):
`val = request.form.get(name, '0').strip()`, then `max(int(val), 0)`,
defaulting to `0` when `int` raises. -/
def nuevo_to_int (field : Option String) : Int :=
  let val := pyStrip (field.getD "0")
  match pyInt val with
  | some n => max n 0
  | none => 0

/-- The `to_int` helper nested in the `editar` handler (`app.py`):
absent or empty input keeps the current value, otherwise `max(int(val), 0)`,
falling back to the current value when `int` raises. -/
def editar_to_int (field : Option String) (current : Int) : Int :=
  match field with
  | none => current
  | some v =>
      if v = "" then current
      else
        match pyInt v with
        | some n => max n 0
        | none => current

example : pyInt "-5" = some (-5) := by decide
example : pyInt "abc" = none := by decide
example : pyInt "" = none := by decide
example : pyInt " 12 " = some 12 := by decide
example : editar_to_int (some "-5") 7 = 0 := by decide
example : editar_to_int (some "abc") 7 = 7 := by decide
example : editar_to_int (some "") 7 = 7 := by decide
example : nuevo_to_int (some "-5") = 0 := by decide
example : nuevo_to_int none = 0 := by decide

/-- Outcome of running a date form field through `dateutil.parser.parse`:
the field was absent, present but unparseable (the parser raises), or
parsed to a date.  The date parser itself is an external library. -/
inductive DateInput
  | absent
  | invalid
  | valid (d : Date)
deriving DecidableEq, Repr

/-- The record form fields read by the `nuevo` and `editar` handlers.
`none` models a field missing from `request.form`. -/
structure RecordForm where
  fecha : DateInput
  hospital : Option String
  atenciones : Option String
  ingresos : Option String
  alta_voluntario : Option String
  traslados : Option String
  defunciones : Option String
  motivo_traslado : Option String
  hospital_referencia : Option String
  eventualidades : Option String
deriving Repr

/-- `fecha = parser.parse(fecha_str).date() if fecha_str else default`:
an absent field falls back to the default, an unparseable one raises
(`none`, caught by the surrounding `try`). -/
def resolveFecha (di : DateInput) (default : Date) : Option Date :=
  match di with
  | .absent => some default
  | .invalid => none
  | .valid d => some d

/-- `Hospital.query.filter_by(nombre=..., activo=True).first()`. -/
def Store.findActiveHospital (st : Store) (nombre : String) : Option Hospital :=
  st.hospitals.find? (fun h => h.nombre == nombre && h.activo)

/-- Target-hospital resolution in `nuevo`: an admin supplies the hospital,
which must name an active hospital; a non-admin's input is ignored and the
actor's own hospital is used. -/
def resolveHospitalNuevo (st : Store) (actor : Actor) (form : RecordForm) :
    Option String :=
  if actor.is_admin then
    let hospital_nombre := pyStrip (form.hospital.getD "")
    match st.findActiveHospital hospital_nombre with
    | some _ => some hospital_nombre
    | none => none
  else some actor.hospital

/-- Target-hospital resolution in `editar`: like `nuevo`, except an absent
or empty admin input falls back to the record's current hospital
(`request.form.get('hospital') or rec.hospital`). -/
def resolveHospitalEditar (st : Store) (actor : Actor) (rec0 : EmergencyRecord)
    (form : RecordForm) : Option String :=
  if actor.is_admin then
    let hospital_nombre := pyStrip
      (match form.hospital with
        | none => rec0.hospital
        | some s => if s = "" then rec0.hospital else s)
    match st.findActiveHospital hospital_nombre with
    | some _ => some hospital_nombre
    | none => none
  else some actor.hospital

/-- Outcome of a POST to `/nuevo`.  `duplicate` carries the id of the
already-existing record, to which the handler redirects for editing. -/
inductive NuevoResult
  | ok (st : Store) (newId : Nat)
  | invalidHospital
  | duplicate (redirectId : Nat)
  | parseError
deriving Repr

/-- POST handler of `/nuevo` (`app.py`, function `nuevo`): parse the date,
resolve the target hospital by role, reject when a record for the same
`(fecha, hospital)` already exists, otherwise insert a fresh row with
counters coerced through `to_int` and stripped free-text fields. -/
def nuevo (st : Store) (actor : Actor) (today : Date) (form : RecordForm) :
    NuevoResult :=
  match resolveFecha form.fecha today with
  | none => .parseError
  | some fecha =>
    match resolveHospitalNuevo st actor form with
    | none => .invalidHospital
    | some hospital =>
      match st.records.find?
          (fun r => decide (r.fecha = fecha ∧ r.hospital = hospital)) with
      | some existente => .duplicate existente.id
      | none =>
        let rec0 : EmergencyRecord :=
          { id := st.nextId
            fecha := fecha
            hospital := hospital
            atenciones := nuevo_to_int form.atenciones
            ingresos := nuevo_to_int form.ingresos
            alta_voluntario := nuevo_to_int form.alta_voluntario
            traslados := nuevo_to_int form.traslados
            defunciones := nuevo_to_int form.defunciones
            motivo_traslado := pyStrip (form.motivo_traslado.getD "")
            hospital_referencia := pyStrip (form.hospital_referencia.getD "")
            eventualidades := pyStrip (form.eventualidades.getD "") }
        .ok { st with records := st.records ++ [rec0], nextId := st.nextId + 1 }
          st.nextId

/-- Outcome of a POST to `/editar/<rec_id>`. -/
inductive EditarResult
  | ok (st : Store)
  | notFound
  | forbidden
  | invalidHospital
  | duplicate
  | parseError
deriving Repr

/-- POST handler of `/editar/<rec_id>` (`app.py`, function `editar`):
load the record (404 when absent), forbid non-admins editing another
hospital, parse the date, resolve the target hospital, reject when another
record (different id) occupies the target `(fecha, hospital)`, otherwise
overwrite the row, counters going through the partial-update `to_int`. -/
def editar (st : Store) (actor : Actor) (recId : Nat) (form : RecordForm) :
    EditarResult :=
  match st.records.find? (fun r => r.id == recId) with
  | none => .notFound
  | some rec0 =>
    if actor.is_admin = false ∧ rec0.hospital ≠ actor.hospital then .forbidden
    else
      match resolveFecha form.fecha rec0.fecha with
      | none => .parseError
      | some nuevaFecha =>
        match resolveHospitalEditar st actor rec0 form with
        | none => .invalidHospital
        | some nuevoHospital =>
          match st.records.find? (fun r =>
              decide (r.id ≠ rec0.id ∧ r.fecha = nuevaFecha ∧
                r.hospital = nuevoHospital)) with
          | some _ => .duplicate
          | none =>
            let rec1 : EmergencyRecord :=
              { id := rec0.id
                fecha := nuevaFecha
                hospital := nuevoHospital
                atenciones := editar_to_int form.atenciones rec0.atenciones
                ingresos := editar_to_int form.ingresos rec0.ingresos
                alta_voluntario :=
                  editar_to_int form.alta_voluntario rec0.alta_voluntario
                traslados := editar_to_int form.traslados rec0.traslados
                defunciones := editar_to_int form.defunciones rec0.defunciones
                motivo_traslado := pyStrip (form.motivo_traslado.getD "")
                hospital_referencia :=
                  pyStrip (form.hospital_referencia.getD "")
                eventualidades := pyStrip (form.eventualidades.getD "") }
            .ok { st with records :=
              st.records.map (fun r => if r.id = rec0.id then rec1 else r) }

/-- A record-store operation performed through the handlers. -/
inductive Op
  | create (actor : Actor) (today : Date) (form : RecordForm)
  | update (actor : Actor) (recId : Nat) (form : RecordForm)

/-- Apply one operation: the store changes only on the success path (the
handlers commit only after all validations pass). -/
def applyOp (st : Store) : Op → Store
  | .create actor today form =>
    match nuevo st actor today form with
    | .ok st' _ => st'
    | _ => st
  | .update actor recId form =>
    match editar st actor recId form with
    | .ok st' => st'
    | _ => st

/-- Apply a sequence of create/update operations. -/
def applyOps (st : Store) (ops : List Op) : Store :=
  ops.foldl applyOp st

/-- The `(fecha, hospital)` key of every record, in store order. -/
def recordKeys (rs : List EmergencyRecord) : List (Date × String) :=
  rs.map (fun r => (r.fecha, r.hospital))

/-- Store invariant: record ids are distinct and below the auto-increment
counter, and the `(fecha, hospital)` keys are distinct. -/
def StoreInv (st : Store) : Prop :=
  (st.records.map (fun r => r.id)).Nodup ∧
    (recordKeys st.records).Nodup ∧
    ∀ r ∈ st.records, r.id < st.nextId

/-- Shared row predicate built identically in `listar`, `exportar_csv`,
`exportar_excel` and `dashboard`: non-admins are forced to their own
hospital, admins may filter by a (stripped, non-empty) hospital name; the
two date bounds are inclusive when present. -/
def recordFilter (actor : Actor) (f_hospital : String)
    (dDesde dHasta : Option Date) (r : EmergencyRecord) : Bool :=
  (if actor.is_admin = false then decide (r.hospital = actor.hospital)
   else if f_hospital ≠ "" then decide (r.hospital = f_hospital) else true)
  && (match dDesde with | some d => decide (d ≤ r.fecha) | none => true)
  && (match dHasta with | some d => decide (r.fecha ≤ d) | none => true)

/-- The shared query primitive: the record rows passing `recordFilter`. -/
def queryRecords (recs : List EmergencyRecord) (actor : Actor)
    (f_hospital : String) (dDesde dHasta : Option Date) :
    List EmergencyRecord :=
  recs.filter (recordFilter actor f_hospital dDesde dHasta)

/-- `order_by(fecha.desc(), id.desc())` as a relation: `a` comes no later
than `b` when `a`'s key `(fecha, id)` is lexicographically at least `b`'s. -/
def listarOrder (a b : EmergencyRecord) : Prop :=
  b.fecha < a.fecha ∨ (b.fecha = a.fecha ∧ b.id ≤ a.id)

/-- `order_by(fecha.asc(), id.asc())` as a relation. -/
def excelOrder (a b : EmergencyRecord) : Prop :=
  a.fecha < b.fecha ∨ (a.fecha = b.fecha ∧ a.id ≤ b.id)

/-- `order_by(fecha.asc())` as a relation (ties left unspecified). -/
def dashboardOrder (a b : EmergencyRecord) : Prop :=
  a.fecha ≤ b.fecha

instance : DecidableRel listarOrder := fun a b => by
  unfold listarOrder; infer_instance

instance : DecidableRel excelOrder := fun a b => by
  unfold excelOrder; infer_instance

instance : DecidableRel dashboardOrder := fun a b => by
  unfold dashboardOrder; infer_instance

instance : IsTotal EmergencyRecord listarOrder := by
  constructor
  intro a b
  unfold listarOrder
  rcases lt_trichotomy a.fecha b.fecha with h | h | h
  · exact Or.inr (Or.inl h)
  · rcases Nat.le_total b.id a.id with h2 | h2
    · exact Or.inl (Or.inr ⟨h.symm, h2⟩)
    · exact Or.inr (Or.inr ⟨h, h2⟩)
  · exact Or.inl (Or.inl h)

instance : IsTrans EmergencyRecord listarOrder := by
  constructor
  intro a b c hab hbc
  rcases hab with h1 | ⟨e1, l1⟩ <;> rcases hbc with h2 | ⟨e2, l2⟩
  · exact Or.inl (lt_trans h2 h1)
  · exact Or.inl (lt_of_eq_of_lt e2 h1)
  · exact Or.inl (lt_of_lt_of_eq h2 e1)
  · exact Or.inr ⟨e2.trans e1, le_trans l2 l1⟩

instance : IsTotal EmergencyRecord excelOrder := by
  constructor
  intro a b
  unfold excelOrder
  rcases lt_trichotomy a.fecha b.fecha with h | h | h
  · exact Or.inl (Or.inl h)
  · rcases Nat.le_total a.id b.id with h2 | h2
    · exact Or.inl (Or.inr ⟨h, h2⟩)
    · exact Or.inr (Or.inr ⟨h.symm, h2⟩)
  · exact Or.inr (Or.inl h)

instance : IsTrans EmergencyRecord excelOrder := by
  constructor
  intro a b c hab hbc
  rcases hab with h1 | ⟨e1, l1⟩ <;> rcases hbc with h2 | ⟨e2, l2⟩
  · exact Or.inl (lt_trans h1 h2)
  · exact Or.inl (lt_of_lt_of_eq h1 e2)
  · exact Or.inl (lt_of_eq_of_lt e1 h2)
  · exact Or.inr ⟨e1.trans e2, le_trans l1 l2⟩

instance : IsTotal EmergencyRecord dashboardOrder :=
  ⟨fun a b => le_total a.fecha b.fecha⟩

instance : IsTrans EmergencyRecord dashboardOrder :=
  ⟨fun _ _ _ h1 h2 => le_trans h1 h2⟩

/-- `/listar`: scope + filter, then `order_by(fecha.desc(), id.desc())`. -/
def listarRegistros (st : Store) (actor : Actor) (hospitalArg : String)
    (dDesde dHasta : Option Date) : List EmergencyRecord :=
  List.insertionSort listarOrder
    (queryRecords st.records actor (pyStrip hospitalArg) dDesde dHasta)

/-- `/exportar_csv`: identical scope + filter and the same
`order_by(fecha.desc(), id.desc())` as the listing. -/
def exportarCsvRegistros (st : Store) (actor : Actor) (hospitalArg : String)
    (dDesde dHasta : Option Date) : List EmergencyRecord :=
  List.insertionSort listarOrder
    (queryRecords st.records actor (pyStrip hospitalArg) dDesde dHasta)

/-- `/dashboard`: scope + filter, then `order_by(fecha.asc())`. -/
def dashboardRegistros (st : Store) (actor : Actor) (hospitalArg : String)
    (dDesde dHasta : Option Date) : List EmergencyRecord :=
  List.insertionSort dashboardOrder
    (queryRecords st.records actor (pyStrip hospitalArg) dDesde dHasta)

/-- The date-inversion correction unique to `exportar_excel`: when both
bounds parsed and `d_desde > d_hasta`, the two are swapped. -/
def excelSwap (d1 d2 : Option Date) : Option Date × Option Date :=
  match d1, d2 with
  | some a, some b => if b < a then (some b, some a) else (some a, some b)
  | x, y => (x, y)

/-- One `exportar_excel` query round: scope + filter with the given bounds,
then `order_by(fecha.asc(), id.asc())`. -/
def excelQueryOnce (st : Store) (actor : Actor) (f_hospital : String)
    (dDesde dHasta : Option Date) : List EmergencyRecord :=
  List.insertionSort excelOrder
    (queryRecords st.records actor f_hospital dDesde dHasta)

/-- Decimal digits of `n`, padded with leading zeros to the given width. -/
def padChars (width : Nat) (n : Nat) : List Char :=
  let s := Nat.toDigits 10 n
  List.replicate (width - s.length) '0' ++ s

/-- Python `date.isoformat()`: `YYYY-MM-DD`. -/
def Date.isoformat (d : Date) : String :=
  String.mk (padChars 4 d.year ++ '-' :: (padChars 2 d.month ++ '-' :: padChars 2 d.day))

example : (Date.mk 2024 3 7).isoformat = "2024-03-07" := by decide

/-- Python `str(n)` for an integer. -/
def intChars (n : Int) : List Char :=
  match n with
  | .ofNat m => Nat.toDigits 10 m
  | .negSucc m => '-' :: Nat.toDigits 10 (m + 1)

/-- Python `str(n)` for an integer, as a `String`. -/
def intStr (n : Int) : String :=
  String.mk (intChars n)

example : intStr (-5) = "-5" := by decide
example : intStr 0 = "0" := by decide

/-- Python `s.replace("\r", " ")`. -/
def pyReplaceCR (s : String) : String :=
  String.mk (s.data.map (fun c => if c = '\x0d' then ' ' else c))

/-- `EmergencyRecord.to_row` (`models.py`): the fixed export row
`[fecha ISO, hospital, atenciones, ingresos, alta_voluntario, traslados,
motivo_traslado, hospital_referencia, defunciones, eventualidades]`, with
only the `eventualidades` field having carriage returns replaced by spaces
and being stripped. -/
def EmergencyRecord.to_row (r : EmergencyRecord) : List String :=
  [ r.fecha.isoformat,
    r.hospital,
    intStr r.atenciones,
    intStr r.ingresos,
    intStr r.alta_voluntario,
    intStr r.traslados,
    r.motivo_traslado,
    r.hospital_referencia,
    intStr r.defunciones,
    pyStrip (pyReplaceCR r.eventualidades) ]

/-- The `motivo_vacio` notes accumulated while building the
`exportar_excel` query, in source order. -/
def excelMotivoVacio (actor : Actor) (f_hospital : String)
    (dDesde dHasta : Option Date) : List String :=
  (if actor.is_admin = false then
      ["Rol usuario restringe a hospital \x27" ++ actor.hospital ++ "\x27"]
   else if f_hospital ≠ "" then
      ["Filtro hospital \x27" ++ f_hospital ++ "\x27"]
   else [])
  ++ (match dDesde with
      | some d => ["Desde " ++ d.isoformat]
      | none => [])
  ++ (match dHasta with
      | some d => ["Hasta " ++ d.isoformat]
      | none => [])

/-- Note recorded when the spreadsheet export dropped the date filters. -/
def excelFallbackMsg : String :=
  "Sin resultados con fechas; se exportó sin filtros de fecha."

/-- The observable data of `/exportar_excel`: the exported record list,
the fallback flag `reintento_sin_fechas`, and the Summary-sheet notes. -/
structure ExcelExport where
  registros : List EmergencyRecord
  reintento_sin_fechas : Bool
  notes : List String
deriving Repr

/-- `/exportar_excel` (`app.py`): strip the hospital argument, correct an
inverted date range, run the scoped and date-bounded query ascending by
date; when that is empty and at least one date bound was present, rerun
the same query without the date bounds and flag the fallback; finally
assemble the Summary notes. -/
def exportarExcelData (st : Store) (actor : Actor) (hospitalArg : String)
    (dDesde0 dHasta0 : Option Date) : ExcelExport :=
  let f_hospital := pyStrip hospitalArg
  let dd := excelSwap dDesde0 dHasta0
  let dDesde := dd.1
  let dHasta := dd.2
  let motivo_vacio := excelMotivoVacio actor f_hospital dDesde dHasta
  let registros0 := excelQueryOnce st actor f_hospital dDesde dHasta
  let reintento : Bool :=
    (registros0.length == 0) && (dDesde.isSome || dHasta.isSome)
  let registros :=
    if reintento then excelQueryOnce st actor f_hospital none none
    else registros0
  let notes :=
    (if reintento then [excelFallbackMsg] else [])
      ++ (if motivo_vacio ≠ [] then
            ["Filtros aplicados: " ++ String.intercalate "; " motivo_vacio]
          else [])
  ⟨registros, reintento, notes⟩

/-- Cell `B9` of the Summary sheet: the notes joined by newlines, or a
placeholder dash when there are none. -/
def excelSummaryB9 (e : ExcelExport) : String :=
  if e.notes ≠ [] then String.intercalate "\n" e.notes else "—"

/-- One step of the ranking loop: `totales.setdefault(h, 0)` followed by
`totales[h] += a`, on an insertion-ordered association list. -/
def addTotal : List (String × Int) → String → Int → List (String × Int)
  | [], h, a => [(h, a)]
  | (k, v) :: rest, h, a =>
      if k = h then (k, v + a) :: rest else (k, v) :: addTotal rest h a

/-- The ranking loop of `dashboard`: fold `addTotal` over the records. -/
def rankingTotales : List EmergencyRecord → List (String × Int) →
    List (String × Int)
  | [], t => t
  | r :: rs, t => rankingTotales rs (addTotal t r.hospital r.atenciones)

/-- `sorted(..., key=attendances, reverse=True)` as a relation: descending
by summed `atenciones`, stable on ties. -/
def rankOrder (a b : String × Int) : Prop :=
  b.2 ≤ a.2

instance : DecidableRel rankOrder := fun a b => by
  unfold rankOrder; infer_instance

instance : IsTotal (String × Int) rankOrder :=
  ⟨fun a b => le_total b.2 a.2⟩

instance : IsTrans (String × Int) rankOrder :=
  ⟨fun _ _ _ h1 h2 => le_trans h2 h1⟩

/-- The hospital ranking of `/dashboard`: computed only for an admin with
no hospital filter; sums `atenciones` per hospital over the filtered
records and keeps the top 5 by descending total. -/
def dashboardRanking (st : Store) (actor : Actor) (hospitalArg : String)
    (dDesde dHasta : Option Date) : List (String × Int) :=
  let f_hospital := pyStrip hospitalArg
  if actor.is_admin = true ∧ f_hospital = "" then
    (List.insertionSort rankOrder
      (rankingTotales (dashboardRegistros st actor hospitalArg dDesde dHasta) [])).take 5
  else []

/-- `a.nombre ≤ b.nombre`: the `order_by(nombre.asc())` relation. -/
def hospOrder (a b : Hospital) : Prop :=
  a.nombre ≤ b.nombre

instance : DecidableRel hospOrder := fun a b => by
  unfold hospOrder; infer_instance

instance : IsTotal Hospital hospOrder :=
  ⟨fun a b => le_total a.nombre b.nombre⟩

instance : IsTrans Hospital hospOrder :=
  ⟨fun _ _ _ h1 h2 => le_trans h1 h2⟩

/-- `inject_choices` (`app.py`): the active hospitals, ordered by name,
that populate every hospital-selection surface. -/
def listActiveHospitals (st : Store) : List Hospital :=
  List.insertionSort hospOrder (st.hospitals.filter (fun h => h.activo))

/-- POST handler of `/hospitales/eliminar/<h_id>`: soft delete.  The row is
looked up (404 when absent, `none`) and its `activo` flag cleared; nothing
else in the store is touched. -/
def hospitalesEliminar (st : Store) (hId : Nat) : Option Store :=
  match st.hospitals.find? (fun h => h.id == hId) with
  | none => none
  | some _ =>
      let hospitals' :=
        st.hospitals.map (fun h => if h.id = hId then { h with activo := false } else h)
      some { st with hospitals := hospitals' }

/-- A CSV field needs quoting when it contains a comma, a quote, or a
newline character (Python `csv.writer` with `QUOTE_MINIMAL`). -/
def csvNeedQuote (s : List Char) : Bool :=
  s.any (fun c => c = ',' || c = '"' || c = '\x0d' || c = '\n')

/-- Double every quote character (the writer's quote escaping). -/
def csvEscQ : List Char → List Char
  | [] => []
  | c :: cs => if c = '"' then '"' :: '"' :: csvEscQ cs else c :: csvEscQ cs

/-- Render one CSV field, quoting it when needed. -/
def csvField (s : List Char) : List Char :=
  if csvNeedQuote s then '"' :: (csvEscQ s ++ ['"']) else s

/-- Render the cells of one row, comma separated. -/
def csvCells : List (List Char) → List Char
  | [] => []
  | [f] => csvField f
  | f :: fs => csvField f ++ ',' :: csvCells fs

/-- Render one row with the writer's `\r\n` terminator. -/
def csvRow (fs : List (List Char)) : List Char :=
  csvCells fs ++ ['\x0d', '\n']

/-- Render a row list (the whole file body, header included). -/
def csvRows (rows : List (List (List Char))) : List Char :=
  (rows.map csvRow).flatten

/-- The header row written by `exportar_csv`. -/
def csvHeaders : List String :=
  [ "Fecha", "Hospital", "Atenciones", "Ingresos", "Alta Voluntario",
    "Traslados", "Motivo del traslado", "Hospital de referencia",
    "Defunciones", "Eventualidades" ]

/-- The full `exportar_csv` response body: UTF-8 byte-order mark, header
row, then one `to_row` row per record. -/
def csvOutput (registros : List EmergencyRecord) : String :=
  String.mk ('\uFEFF' ::
    csvRows (csvHeaders.map (fun s => s.data)
      :: registros.map (fun r => r.to_row.map (fun s => s.data))))

/-- State of the CSV reader automaton. -/
inductive CsvState
  | fieldStart
  | afterCR
  | unquoted
  | quoted
  | quotedQ
deriving DecidableEq, Repr

/-- CSV reader (the model of Python `csv.reader` on the produced file):
a character-at-a-time automaton over the input, carrying the current
field and the current row.  `afterCR` absorbs the `\n` of a `\r\n` pair;
a blank line yields an empty row, as Python's reader does. -/
def csvParseAux : CsvState → List Char → List Char → List (List Char) →
    List (List (List Char))
  | st, [], field, row =>
      if (st = CsvState.fieldStart ∨ st = CsvState.afterCR) ∧ row = [] ∧ field = []
      then [] else [row ++ [field]]
  | st, c :: cs, field, row =>
      match st with
      | CsvState.quoted =>
          if c = '"' then csvParseAux CsvState.quotedQ cs field row
          else csvParseAux CsvState.quoted cs (field ++ [c]) row
      | CsvState.quotedQ =>
          if c = '"' then csvParseAux CsvState.quoted cs (field ++ ['"']) row
          else if c = ',' then csvParseAux CsvState.fieldStart cs [] (row ++ [field])
          else if c = '\x0d' then
            (row ++ [field]) :: csvParseAux CsvState.afterCR cs [] []
          else if c = '\n' then
            (row ++ [field]) :: csvParseAux CsvState.fieldStart cs [] []
          else csvParseAux CsvState.unquoted cs (field ++ [c]) row
      | CsvState.unquoted =>
          if c = ',' then csvParseAux CsvState.fieldStart cs [] (row ++ [field])
          else if c = '\x0d' then
            (row ++ [field]) :: csvParseAux CsvState.afterCR cs [] []
          else if c = '\n' then
            (row ++ [field]) :: csvParseAux CsvState.fieldStart cs [] []
          else csvParseAux CsvState.unquoted cs (field ++ [c]) row
      | CsvState.afterCR =>
          if c = '\n' then csvParseAux CsvState.fieldStart cs [] []
          else if c = '"' then csvParseAux CsvState.quoted cs field row
          else if c = ',' then csvParseAux CsvState.fieldStart cs [] (row ++ [field])
          else if c = '\x0d' then
            (if row = [] ∧ field = [] then ([] : List (List Char)) else row ++ [field])
              :: csvParseAux CsvState.afterCR cs [] []
          else csvParseAux CsvState.unquoted cs (field ++ [c]) row
      | CsvState.fieldStart =>
          if c = '"' then csvParseAux CsvState.quoted cs field row
          else if c = ',' then csvParseAux CsvState.fieldStart cs [] (row ++ [field])
          else if c = '\x0d' then
            (if row = [] ∧ field = [] then ([] : List (List Char)) else row ++ [field])
              :: csvParseAux CsvState.afterCR cs [] []
          else if c = '\n' then
            (if row = [] ∧ field = [] then ([] : List (List Char)) else row ++ [field])
              :: csvParseAux CsvState.fieldStart cs [] []
          else csvParseAux CsvState.unquoted cs (field ++ [c]) row

/-- Decoding with `utf-8-sig`: a leading byte-order mark is removed. -/
def stripBom (s : String) : String :=
  match s.data with
  | c :: cs => if c = '\uFEFF' then String.mk cs else s
  | [] => s

/-- Parse a CSV file body into rows of string fields. -/
def csvParseString (s : String) : List (List String) :=
  (csvParseAux CsvState.fieldStart s.data [] []).map
    (fun row => row.map (fun f => String.mk f))

example :
    csvParseString "a,\"b\"\"x\",c\x0d\nd,,\"e,\nf\"\x0d\n" =
      [["a", "b\"x", "c"], ["d", "", "e,\nf"]] := by decide

/-! ## Concrete fixtures used by witnesses and counterexamples -/

/-- A non-admin actor assigned to hospital `H1`. -/
def actorUser : Actor := ⟨false, "H1"⟩

/-- An admin actor. -/
def adminActor : Actor := ⟨true, "Central"⟩

/-- An existing record for `(2024-01-01, H1)` with 7 attendances. -/
def recPrior : EmergencyRecord :=
  ⟨1, ⟨2024, 1, 1⟩, "H1", 7, 2, 1, 0, "", "", 0, ""⟩

/-- A store holding `recPrior` and the active hospital `H1`. -/
def stPrior : Store := ⟨[recPrior], [⟨1, "H1", true⟩], 2⟩

/-- An edit form setting only the `atenciones` field, to `"-5"`. -/
def formNeg5 : RecordForm :=
  ⟨DateInput.absent, none, some "-5", none, none, none, none, none, none, none⟩

/-- A create form targeting the already-occupied pair `(2024-01-01, H1)`. -/
def formDup : RecordForm :=
  ⟨DateInput.valid ⟨2024, 1, 1⟩, some "H1", none, none, none, none, none,
    none, none, none⟩

/-! ## C4: counter coercion on update -/

/-- C4 counterexample: editing the stored record (prior `atenciones = 7`)
with the input `"-5"` does not retain the prior value, as the claim
states; the handler parses `-5` and clamps it, storing `0`. -/
theorem editar_negative_counter_clamps :
    (match editar stPrior actorUser 1 formNeg5 with
     | EditarResult.ok st' => st'.records.map (fun r => r.atenciones)
     | _ => []) = [0] ∧ ((0 : Int) = 7 → False) := by
  decide

/-- C4 (amended): on update, an absent, empty or unparseable counter field
retains the current value; a parseable one stores `max(parsed, 0)` — so
`"abc"` retains the prior value but `"-5"` stores `0` — and the stored
value is never negative when the current value is not. -/
theorem editar_to_int_spec (v : String) (cur : Int) :
    editar_to_int none cur = cur ∧
    editar_to_int (some "") cur = cur ∧
    (v ≠ "" → pyInt v = none → editar_to_int (some v) cur = cur) ∧
    (∀ n : Int, v ≠ "" → pyInt v = some n →
      editar_to_int (some v) cur = max n 0) ∧
    (0 ≤ cur → 0 ≤ editar_to_int (some v) cur) ∧
    editar_to_int (some "abc") cur = cur ∧
    editar_to_int (some "-5") cur = 0 := by
  refine ⟨rfl, rfl, ?_, ?_, ?_, ?_, ?_⟩
  · intro hne hparse
    simp [editar_to_int, hne, hparse]
  · intro n hne hparse
    simp [editar_to_int, hne, hparse]
  · intro hcur
    unfold editar_to_int
    by_cases hv : v = ""
    · simp [hv, hcur]
    · simp only [if_neg hv]
      cases hp : pyInt v with
      | none => exact hcur
      | some n => exact le_max_right n 0
  · simp [editar_to_int, show pyInt "abc" = none from by decide]
  · simp [editar_to_int, show pyInt "-5" = some (-5) from by decide]

/-- C4 witness: the amended behaviour at concrete inputs, via
`editar_to_int_spec`. -/
theorem editar_to_int_spec_witness :
    editar_to_int (some "abc") 7 = 7 ∧ editar_to_int (some "-5") 7 = 0 := by
  have h := editar_to_int_spec "abc" 7
  exact ⟨h.2.2.1 (by decide) (by decide), (editar_to_int_spec "-5" 7).2.2.2.2.2.2⟩

/-! ## C3: duplicate create is rejected -/

/-- C3: when the create form resolves to a date `D` and hospital `H` for
which a record `e` already exists, `nuevo` fails with the duplicate
outcome, redirecting to edit `e`, and the store is left unchanged. -/
theorem nuevo_duplicate_reject (st : Store) (actor : Actor)
    (today D : Date) (H : String) (form : RecordForm) (e : EmergencyRecord)
    (hf : resolveFecha form.fecha today = some D)
    (hh : resolveHospitalNuevo st actor form = some H)
    (he : st.records.find?
      (fun r => decide (r.fecha = D ∧ r.hospital = H)) = some e) :
    nuevo st actor today form = NuevoResult.duplicate e.id ∧
    applyOp st (Op.create actor today form) = st := by
  have h1 : nuevo st actor today form = NuevoResult.duplicate e.id := by
    unfold nuevo
    simp only [hf, hh, he]
  exact ⟨h1, by simp only [applyOp, h1]⟩

/-- C3 witness: creating over the occupied pair `(2024-01-01, H1)` in
`stPrior` is rejected with a redirect to record 1 and no store change. -/
theorem nuevo_duplicate_reject_witness :
    nuevo stPrior adminActor ⟨2024, 1, 2⟩ formDup = NuevoResult.duplicate 1 ∧
    applyOp stPrior (Op.create adminActor ⟨2024, 1, 2⟩ formDup) = stPrior := by
  have h := nuevo_duplicate_reject stPrior adminActor ⟨2024, 1, 2⟩
    ⟨2024, 1, 1⟩ "H1" formDup recPrior (by decide) (by decide) (by decide)
  exact ⟨h.1, h.2⟩

/-! ## C10: inverted date ranges -/

/-- With an inverted range (`from > to`) the shared filter admits no row. -/
theorem queryRecords_inverted (recs : List EmergencyRecord) (actor : Actor)
    (f : String) {a b : Date} (hba : b < a) :
    queryRecords recs actor f (some a) (some b) = [] := by
  apply List.filter_eq_nil_iff.mpr
  intro r _
  simp only [recordFilter, Bool.and_eq_true, decide_eq_true_eq]
  rintro ⟨⟨-, h1⟩, h2⟩
  exact absurd (le_trans h1 h2) (not_le.mpr hba)

/-- C10: only the spreadsheet export swaps an inverted date range — its
output with `(from = a, to = b)`, `a > b`, equals its output with the
bounds given in order — while the listing, the CSV export and the
dashboard leave the bounds alone and return an empty record set. -/
theorem excel_swaps_inverted_range (st : Store) (actor : Actor)
    (harg : String) (a b : Date) (hba : b < a) :
    exportarExcelData st actor harg (some a) (some b) =
      exportarExcelData st actor harg (some b) (some a) ∧
    listarRegistros st actor harg (some a) (some b) = [] ∧
    exportarCsvRegistros st actor harg (some a) (some b) = [] ∧
    dashboardRegistros st actor harg (some a) (some b) = [] := by
  have hswap : excelSwap (some a) (some b) = excelSwap (some b) (some a) := by
    simp only [excelSwap]
    rw [if_pos hba, if_neg (asymm hba)]
  refine ⟨?_, ?_, ?_, ?_⟩
  · unfold exportarExcelData
    rw [hswap]
  · simp [listarRegistros, queryRecords_inverted st.records actor _ hba,
      List.insertionSort]
  · simp [exportarCsvRegistros, queryRecords_inverted st.records actor _ hba,
      List.insertionSort]
  · simp [dashboardRegistros, queryRecords_inverted st.records actor _ hba,
      List.insertionSort]

/-- C10 witness: a concrete inverted range on `stPrior`. -/
theorem excel_swaps_inverted_range_witness :
    exportarExcelData stPrior adminActor "" (some ⟨2024, 2, 1⟩) (some ⟨2024, 1, 1⟩) =
      exportarExcelData stPrior adminActor "" (some ⟨2024, 1, 1⟩) (some ⟨2024, 2, 1⟩) ∧
    listarRegistros stPrior adminActor "" (some ⟨2024, 2, 1⟩) (some ⟨2024, 1, 1⟩) = [] := by
  have h := excel_swaps_inverted_range stPrior adminActor ""
    ⟨2024, 2, 1⟩ ⟨2024, 1, 1⟩ (by decide)
  exact ⟨h.1, h.2.1⟩

/-! ## C2: non-admin scoping -/

/-- For a non-admin the shared filter does not consult `f_hospital`. -/
theorem recordFilter_nonadmin (actor : Actor) (h : actor.is_admin = false)
    (f f' : String) (d1 d2 : Option Date) :
    recordFilter actor f d1 d2 = recordFilter actor f' d1 d2 := by
  funext r
  simp [recordFilter, h]

/-- For a non-admin the shared query does not consult `f_hospital`. -/
theorem queryRecords_nonadmin_indep (recs : List EmergencyRecord)
    (actor : Actor) (h : actor.is_admin = false) (f f' : String)
    (d1 d2 : Option Date) :
    queryRecords recs actor f d1 d2 = queryRecords recs actor f' d1 d2 := by
  unfold queryRecords
  rw [recordFilter_nonadmin actor h f f' d1 d2]

/-- Characterisation of a non-admin's query: exactly the rows of the
actor's own hospital within the date bounds. -/
theorem mem_queryRecords_nonadmin (recs : List EmergencyRecord)
    (actor : Actor) (h : actor.is_admin = false) (f : String)
    (d1 d2 : Option Date) (r : EmergencyRecord) :
    r ∈ queryRecords recs actor f d1 d2 ↔
      r ∈ recs ∧ r.hospital = actor.hospital ∧
        (∀ d, d1 = some d → d ≤ r.fecha) ∧
        (∀ d, d2 = some d → r.fecha ≤ d) := by
  unfold queryRecords
  rw [List.mem_filter]
  cases d1 <;> cases d2 <;>
    simp [recordFilter, h, Bool.and_eq_true, decide_eq_true_eq, and_assoc]

/-- Any row a non-admin's query returns carries the actor's hospital. -/
theorem queryRecords_nonadmin_hospital {recs : List EmergencyRecord}
    {actor : Actor} (h : actor.is_admin = false) {f : String}
    {d1 d2 : Option Date} {r : EmergencyRecord}
    (hr : r ∈ queryRecords recs actor f d1 d2) :
    r.hospital = actor.hospital :=
  ((mem_queryRecords_nonadmin recs actor h f d1 d2 r).mp hr).2.1

/-- For a non-admin the excel `motivo_vacio` notes ignore `f_hospital`. -/
theorem excelMotivoVacio_nonadmin (actor : Actor)
    (h : actor.is_admin = false) (f f' : String) (d1 d2 : Option Date) :
    excelMotivoVacio actor f d1 d2 = excelMotivoVacio actor f' d1 d2 := by
  simp [excelMotivoVacio, h]

/-- For a non-admin one excel query round ignores `f_hospital`. -/
theorem excelQueryOnce_nonadmin_indep (st : Store) (actor : Actor)
    (h : actor.is_admin = false) (f f' : String) (d1 d2 : Option Date) :
    excelQueryOnce st actor f d1 d2 = excelQueryOnce st actor f' d1 d2 := by
  unfold excelQueryOnce
  rw [queryRecords_nonadmin_indep st.records actor h f f' d1 d2]

/-- C2: a non-admin's query, and each entry point built on it (listing,
CSV export, spreadsheet export, dashboard), ignores the supplied
`hospital_filter` and returns exactly the rows of the actor's own
hospital within the date bounds. -/
theorem nonadmin_scope (st : Store) (actor : Actor)
    (h : actor.is_admin = false) (f f' : String) (d1 d2 : Option Date) :
    (∀ r, r ∈ queryRecords st.records actor f d1 d2 ↔
      r ∈ st.records ∧ r.hospital = actor.hospital ∧
        (∀ d, d1 = some d → d ≤ r.fecha) ∧
        (∀ d, d2 = some d → r.fecha ≤ d)) ∧
    queryRecords st.records actor f d1 d2 =
      queryRecords st.records actor f' d1 d2 ∧
    listarRegistros st actor f d1 d2 = listarRegistros st actor f' d1 d2 ∧
    exportarCsvRegistros st actor f d1 d2 =
      exportarCsvRegistros st actor f' d1 d2 ∧
    exportarExcelData st actor f d1 d2 =
      exportarExcelData st actor f' d1 d2 ∧
    dashboardRegistros st actor f d1 d2 =
      dashboardRegistros st actor f' d1 d2 ∧
    dashboardRanking st actor f d1 d2 = dashboardRanking st actor f' d1 d2 ∧
    (∀ r ∈ listarRegistros st actor f d1 d2,
      r.hospital = actor.hospital) ∧
    (∀ r ∈ exportarCsvRegistros st actor f d1 d2,
      r.hospital = actor.hospital) ∧
    (∀ r ∈ (exportarExcelData st actor f d1 d2).registros,
      r.hospital = actor.hospital) ∧
    (∀ r ∈ dashboardRegistros st actor f d1 d2,
      r.hospital = actor.hospital) := by
  refine ⟨mem_queryRecords_nonadmin st.records actor h f d1 d2,
    queryRecords_nonadmin_indep st.records actor h f f' d1 d2, ?_, ?_, ?_, ?_, ?_,
    ?_, ?_, ?_, ?_⟩
  · unfold listarRegistros
    rw [queryRecords_nonadmin_indep st.records actor h (pyStrip f) (pyStrip f') d1 d2]
  · unfold exportarCsvRegistros
    rw [queryRecords_nonadmin_indep st.records actor h (pyStrip f) (pyStrip f') d1 d2]
  · unfold exportarExcelData
    simp only [excelQueryOnce_nonadmin_indep st actor h (pyStrip f) (pyStrip f'),
      excelMotivoVacio_nonadmin actor h (pyStrip f) (pyStrip f')]
  · unfold dashboardRegistros
    rw [queryRecords_nonadmin_indep st.records actor h (pyStrip f) (pyStrip f') d1 d2]
  · simp [dashboardRanking, h]
  · intro r hr
    rw [listarRegistros, List.mem_insertionSort] at hr
    exact queryRecords_nonadmin_hospital h hr
  · intro r hr
    rw [exportarCsvRegistros, List.mem_insertionSort] at hr
    exact queryRecords_nonadmin_hospital h hr
  · intro r hr
    unfold exportarExcelData at hr
    dsimp only at hr
    split at hr <;>
      · rw [excelQueryOnce, List.mem_insertionSort] at hr
        exact queryRecords_nonadmin_hospital h hr
  · intro r hr
    rw [dashboardRegistros, List.mem_insertionSort] at hr
    exact queryRecords_nonadmin_hospital h hr

/-- C2 witness: the non-admin `actorUser` gets the same single `H1` row
out of `stPrior` whether the filter argument names another hospital or is
empty. -/
theorem nonadmin_scope_witness :
    listarRegistros stPrior actorUser "H2" none none =
      listarRegistros stPrior actorUser "" none none ∧
    (∀ r ∈ listarRegistros stPrior actorUser "H2" none none,
      r.hospital = actorUser.hospital) := by
  have h := nonadmin_scope stPrior actorUser rfl "H2" "" none none
  exact ⟨h.2.2.1, h.2.2.2.2.2.2.2.1⟩

/-! ## C9: hospital deactivation is a soft delete -/

/-- C9: deactivating hospital `hId` keeps the hospital row (same row
count, the row still present with its name and a cleared `activo` flag),
removes it from the active-hospital listing, and leaves the emergency
records (and the id counter) untouched. -/
theorem hospitales_eliminar_soft (st : Store) (hId : Nat) (h0 : Hospital)
    (hfind : st.hospitals.find? (fun h => h.id == hId) = some h0) :
    ∃ st', hospitalesEliminar st hId = some st' ∧
      st'.records = st.records ∧
      st'.nextId = st.nextId ∧
      st'.hospitals.length = st.hospitals.length ∧
      (∃ h' ∈ st'.hospitals,
        h'.id = hId ∧ h'.nombre = h0.nombre ∧ h'.activo = false) ∧
      (∀ h' ∈ listActiveHospitals st', h'.id ≠ hId) := by
  have heq : hospitalesEliminar st hId = some { st with hospitals := st.hospitals.map (fun h => if h.id = hId then { h with activo := false } else h) } := by
    unfold hospitalesEliminar
    rw [hfind]
  have hid : h0.id = hId := by
    have := List.find?_some hfind
    simpa using this
  refine ⟨_, heq, rfl, rfl, by simp, ?_, ?_⟩
  · refine ⟨{ h0 with activo := false }, ?_, hid, rfl, rfl⟩
    exact List.mem_map.mpr
      ⟨h0, List.mem_of_find?_eq_some hfind, by rw [if_pos hid]⟩
  · intro h' hmem'
    rw [listActiveHospitals, List.mem_insertionSort] at hmem'
    have hm := List.mem_filter.mp hmem'
    obtain ⟨h'', hh'', hupd⟩ := List.mem_map.mp hm.1
    by_cases hcase : h''.id = hId
    · rw [if_pos hcase] at hupd
      rw [← hupd] at hm
      simp at hm
    · rw [if_neg hcase] at hupd
      subst hupd
      exact hcase

/-- C9 witness: deactivating hospital 1 of `stPrior`. -/
theorem hospitales_eliminar_soft_witness :
    ∃ st', hospitalesEliminar stPrior 1 = some st' ∧
      st'.records = stPrior.records ∧
      st'.nextId = stPrior.nextId ∧
      st'.hospitals.length = stPrior.hospitals.length ∧
      (∃ h' ∈ st'.hospitals,
        h'.id = 1 ∧ h'.nombre = (⟨1, "H1", true⟩ : Hospital).nombre ∧
          h'.activo = false) ∧
      (∀ h' ∈ listActiveHospitals st', h'.id ≠ 1) :=
  hospitales_eliminar_soft stPrior 1 ⟨1, "H1", true⟩ (by decide)

/-! ## C6: spreadsheet export fallback without date filters -/

/-- Unfolded `registros` component of the spreadsheet export. -/
theorem exportarExcelData_registros (st : Store) (actor : Actor)
    (harg : String) (d10 d20 : Option Date) :
    (exportarExcelData st actor harg d10 d20).registros =
      (if ((excelQueryOnce st actor (pyStrip harg) (excelSwap d10 d20).1
              (excelSwap d10 d20).2).length == 0)
          && ((excelSwap d10 d20).1.isSome || (excelSwap d10 d20).2.isSome)
       then excelQueryOnce st actor (pyStrip harg) none none
       else excelQueryOnce st actor (pyStrip harg) (excelSwap d10 d20).1
        (excelSwap d10 d20).2) :=
  rfl

/-- Unfolded `reintento_sin_fechas` component of the spreadsheet export. -/
theorem exportarExcelData_reintento (st : Store) (actor : Actor)
    (harg : String) (d10 d20 : Option Date) :
    (exportarExcelData st actor harg d10 d20).reintento_sin_fechas =
      (((excelQueryOnce st actor (pyStrip harg) (excelSwap d10 d20).1
          (excelSwap d10 d20).2).length == 0)
        && ((excelSwap d10 d20).1.isSome || (excelSwap d10 d20).2.isSome)) :=
  rfl

/-- Unfolded `notes` component of the spreadsheet export. -/
theorem exportarExcelData_notes (st : Store) (actor : Actor)
    (harg : String) (d10 d20 : Option Date) :
    (exportarExcelData st actor harg d10 d20).notes =
      (if (exportarExcelData st actor harg d10 d20).reintento_sin_fechas
       then [excelFallbackMsg] else [])
        ++ (if excelMotivoVacio actor (pyStrip harg) (excelSwap d10 d20).1
              (excelSwap d10 d20).2 ≠ [] then
              ["Filtros aplicados: " ++ String.intercalate "; "
                (excelMotivoVacio actor (pyStrip harg) (excelSwap d10 d20).1
                  (excelSwap d10 d20).2)]
            else []) :=
  rfl

/-- The fallback note never coincides with the applied-filters note. -/
theorem fallbackMsg_ne_filtros (x : String) :
    excelFallbackMsg ≠ "Filtros aplicados: " ++ x := by
  intro hcon
  have hd : excelFallbackMsg.data = "Filtros aplicados: ".data ++ x.data := by
    rw [hcon, String.data_append]
  have h1 : excelFallbackMsg.data.head? = some 'S' := by decide
  have h2 : "Filtros aplicados: ".data = 'F' :: "iltros aplicados: ".data := by
    decide
  rw [hd, h2] at h1
  simp at h1

/-- C6: when the date-bounded spreadsheet query is empty and at least one
date bound was given, the export reruns the query without the date bounds
(scope retained), sets the fallback flag and records the fallback note;
when the first query is non-empty, its rows are exported unchanged, the
flag stays clear, and no fallback note appears. -/
theorem excel_fallback (st : Store) (actor : Actor) (harg : String)
    (d10 d20 : Option Date) :
    (excelQueryOnce st actor (pyStrip harg) (excelSwap d10 d20).1
        (excelSwap d10 d20).2 = [] →
      ((excelSwap d10 d20).1.isSome = true ∨
        (excelSwap d10 d20).2.isSome = true) →
      (exportarExcelData st actor harg d10 d20).registros =
          excelQueryOnce st actor (pyStrip harg) none none ∧
        (exportarExcelData st actor harg d10 d20).reintento_sin_fechas = true ∧
        excelFallbackMsg ∈ (exportarExcelData st actor harg d10 d20).notes) ∧
    (excelQueryOnce st actor (pyStrip harg) (excelSwap d10 d20).1
        (excelSwap d10 d20).2 ≠ [] →
      (exportarExcelData st actor harg d10 d20).registros =
          excelQueryOnce st actor (pyStrip harg) (excelSwap d10 d20).1
            (excelSwap d10 d20).2 ∧
        (exportarExcelData st actor harg d10 d20).reintento_sin_fechas = false ∧
        excelFallbackMsg ∉ (exportarExcelData st actor harg d10 d20).notes) := by
  constructor
  · intro hempty hsome
    have hflag : (exportarExcelData st actor harg d10 d20).reintento_sin_fechas
        = true := by
      rw [exportarExcelData_reintento, hempty]
      rcases hsome with hs | hs <;> simp [hs]
    refine ⟨?_, hflag, ?_⟩
    · rw [exportarExcelData_registros, hempty]
      rcases hsome with hs | hs <;> simp [hs]
    · rw [exportarExcelData_notes, hflag]
      simp
  · intro hne
    have hflag : (exportarExcelData st actor harg d10 d20).reintento_sin_fechas
        = false := by
      rw [exportarExcelData_reintento]
      simp [List.length_eq_zero, hne]
    refine ⟨?_, hflag, ?_⟩
    · rw [exportarExcelData_registros]
      have : ((excelQueryOnce st actor (pyStrip harg) (excelSwap d10 d20).1
          (excelSwap d10 d20).2).length == 0) = false := by
        simp [List.length_eq_zero, hne]
      simp [this]
    · rw [exportarExcelData_notes, hflag]
      intro hmem
      simp only [if_false, Bool.false_eq_true, List.nil_append] at hmem
      rcases hx : excelMotivoVacio actor (pyStrip harg) (excelSwap d10 d20).1
        (excelSwap d10 d20).2 with _ | _
      · rw [hx] at hmem
        simp at hmem
      · rw [hx] at hmem
        simp at hmem
        exact fallbackMsg_ne_filtros _ hmem

/-- C6 witness: an admin export of `stPrior` from 2099 on (guaranteed
empty) falls back to the unbounded query and records the note. -/
theorem excel_fallback_witness :
    (exportarExcelData stPrior adminActor "" (some ⟨2099, 1, 1⟩) none).registros
        = excelQueryOnce stPrior adminActor (pyStrip "") none none ∧
      (exportarExcelData stPrior adminActor ""
        (some ⟨2099, 1, 1⟩) none).reintento_sin_fechas = true ∧
      excelFallbackMsg ∈
        (exportarExcelData stPrior adminActor "" (some ⟨2099, 1, 1⟩) none).notes :=
  (excel_fallback stPrior adminActor "" (some ⟨2099, 1, 1⟩) none).1
    (by decide) (Or.inl (by decide))

/-! ## C5: orderings of the four views -/

/-- A record dated 2024-01-01. -/
def recEarly : EmergencyRecord :=
  ⟨1, ⟨2024, 1, 1⟩, "H1", 1, 0, 0, 0, "", "", 0, ""⟩

/-- A record dated 2024-01-02. -/
def recLate : EmergencyRecord :=
  ⟨2, ⟨2024, 1, 2⟩, "H1", 2, 0, 0, 0, "", "", 0, ""⟩

/-- A store with the two records above. -/
def stTwo : Store := ⟨[recEarly, recLate], [⟨1, "H1", true⟩], 3⟩

/-- C5 counterexample: the CSV export is an export entry point, yet its
output on two records with distinct dates is most-recent-first — not
ascending (chronological) as the claim states for export entry points. -/
theorem csv_export_not_ascending :
    exportarCsvRegistros stTwo adminActor "" none none = [recLate, recEarly] ∧
    ¬ List.Sorted (fun a b : EmergencyRecord => a.fecha ≤ b.fecha)
      (exportarCsvRegistros stTwo adminActor "" none none) := by
  have hl : exportarCsvRegistros stTwo adminActor "" none none
      = [recLate, recEarly] := by decide
  refine ⟨hl, ?_⟩
  rw [hl]
  intro hs
  have hle := (List.sorted_cons.mp hs).1 recEarly (by simp)
  revert hle
  decide

/-- C5 (amended): the listing and the CSV export order descending by date
then descending by id (the CSV export body is identical to the listing),
while the spreadsheet export and the dashboard order ascending by date
(the spreadsheet additionally ascending by id); each view is a
permutation of the shared filtered query. -/
theorem views_ordering (st : Store) (actor : Actor) (harg : String)
    (d1 d2 : Option Date) :
    List.Sorted listarOrder (listarRegistros st actor harg d1 d2) ∧
    exportarCsvRegistros st actor harg d1 d2 =
      listarRegistros st actor harg d1 d2 ∧
    List.Sorted excelOrder ((exportarExcelData st actor harg d1 d2).registros) ∧
    List.Sorted dashboardOrder (dashboardRegistros st actor harg d1 d2) ∧
    (listarRegistros st actor harg d1 d2).Perm
      (queryRecords st.records actor (pyStrip harg) d1 d2) := by
  refine ⟨List.sorted_insertionSort _ _, rfl, ?_,
    List.sorted_insertionSort _ _, List.perm_insertionSort _ _⟩
  rw [exportarExcelData_registros]
  split <;>
    · unfold excelQueryOnce
      exact List.sorted_insertionSort _ _

/-! ## C8: hospital ranking -/

/-- The keys of a totals association list, in order. -/
def keysOf (t : List (String × Int)) : List String :=
  t.map Prod.fst

/-- `keysOf` on a cons cell. -/
theorem keysOf_cons (p : String × Int) (t : List (String × Int)) :
    keysOf (p :: t) = p.1 :: keysOf t :=
  rfl

/-- The summed `atenciones` of the records of one hospital. -/
def sumAten (regs : List EmergencyRecord) (h : String) : Int :=
  ((regs.filter (fun r => r.hospital == h)).map (fun r => r.atenciones)).sum

/-- `addTotal` adds `a` onto the entry of `h` (0 when absent). -/
theorem addTotal_lookup_self (t : List (String × Int)) (h : String) (a : Int) :
    (addTotal t h a).lookup h = some ((t.lookup h).getD 0 + a) := by
  induction t with
  | nil => simp [addTotal, List.lookup]
  | cons p rest ih =>
    obtain ⟨k, v⟩ := p
    by_cases hk : k = h
    · subst hk
      simp [addTotal, List.lookup]
    · simp [addTotal, hk, List.lookup, beq_false_of_ne (Ne.symm hk), ih]

/-- `addTotal` leaves every other entry alone. -/
theorem addTotal_lookup_other (t : List (String × Int)) (h h' : String)
    (a : Int) (hne : h' ≠ h) :
    (addTotal t h a).lookup h' = t.lookup h' := by
  induction t with
  | nil => simp [addTotal, List.lookup, beq_false_of_ne hne]
  | cons p rest ih =>
    obtain ⟨k, v⟩ := p
    by_cases hk : k = h
    · subst hk
      simp [addTotal, List.lookup, beq_false_of_ne hne]
    · by_cases hk2 : h' = k
      · subst hk2
        simp [addTotal, hk, List.lookup]
      · simp [addTotal, hk, List.lookup, beq_false_of_ne hk2, ih]

/-- Lookup in the ranking fold: an existing accumulator entry grows by the
hospital's summed attendances; a hospital occurring in the records gets
exactly its summed attendances; others stay absent. -/
theorem rankingTotales_lookup (regs : List EmergencyRecord) :
    ∀ (t : List (String × Int)) (h : String),
    (rankingTotales regs t).lookup h =
      match t.lookup h with
      | some v => some (v + sumAten regs h)
      | none =>
          if regs.any (fun r => r.hospital == h) then some (sumAten regs h)
          else none := by
  induction regs with
  | nil =>
    intro t h
    cases hl : t.lookup h <;> simp [rankingTotales, sumAten, hl]
  | cons r rs ih =>
    intro t h
    rw [rankingTotales, ih (addTotal t r.hospital r.atenciones) h]
    by_cases hrh : r.hospital = h
    · rw [hrh, addTotal_lookup_self]
      have hsum : sumAten (r :: rs) h = r.atenciones + sumAten rs h := by
        simp [sumAten, List.filter_cons, hrh]
      have hany : (r :: rs).any (fun x => x.hospital == h) = true := by
        simp [List.any_cons, hrh]
      cases hl : t.lookup h with
      | some v => simp [hl, hsum, hany, add_assoc]
      | none => simp [hl, hsum, hany]
    · rw [addTotal_lookup_other t r.hospital h r.atenciones (Ne.symm hrh)]
      have hsum : sumAten (r :: rs) h = sumAten rs h := by
        simp [sumAten, List.filter_cons, beq_false_of_ne hrh]
      have hany : (r :: rs).any (fun x => x.hospital == h)
          = rs.any (fun x => x.hospital == h) := by
        simp [List.any_cons, beq_false_of_ne hrh]
      cases hl : t.lookup h <;> simp [hl, hsum, hany]

/-- The keys after `addTotal`: unchanged, or the new key appended. -/
theorem addTotal_keysOf (t : List (String × Int)) (h : String) (a : Int) :
    keysOf (addTotal t h a) =
      if h ∈ keysOf t then keysOf t else keysOf t ++ [h] := by
  induction t with
  | nil => simp [addTotal, keysOf]
  | cons p rest ih =>
    obtain ⟨k, v⟩ := p
    by_cases hk : k = h
    · subst hk
      simp [addTotal, keysOf_cons, List.mem_cons]
    · have hk' : ¬h = k := fun hh => hk hh.symm
      by_cases hm : h ∈ keysOf rest
      · simp [addTotal, hk, keysOf_cons, ih, hm, List.mem_cons, hk']
      · simp [addTotal, hk, keysOf_cons, ih, hm, List.mem_cons, hk']

/-- `addTotal` preserves distinctness of the keys. -/
theorem addTotal_keys_nodup {t : List (String × Int)} {h : String} {a : Int}
    (hnd : (keysOf t).Nodup) : (keysOf (addTotal t h a)).Nodup := by
  rw [addTotal_keysOf]
  split
  · exact hnd
  · next hm => simp [List.nodup_append, hnd, hm]

/-- The ranking fold preserves distinctness of the keys. -/
theorem rankingTotales_keys_nodup (regs : List EmergencyRecord) :
    ∀ t : List (String × Int), (keysOf t).Nodup →
      (keysOf (rankingTotales regs t)).Nodup := by
  induction regs with
  | nil => intro t h; simpa [rankingTotales] using h
  | cons r rs ih =>
    intro t h
    rw [rankingTotales]
    exact ih _ (addTotal_keys_nodup h)

/-- In a key-distinct association list, membership determines lookup. -/
theorem lookup_eq_of_mem (t : List (String × Int)) (p : String × Int)
    (hnd : (keysOf t).Nodup) (hmem : p ∈ t) :
    t.lookup p.1 = some p.2 := by
  induction t with
  | nil => cases hmem
  | cons q rest ih =>
    obtain ⟨k, v⟩ := q
    rcases List.mem_cons.mp hmem with heq | hmem'
    · subst heq
      simp [List.lookup]
    · have hk : k ≠ p.1 := by
        intro hkk
        have hp1 : p.1 ∈ keysOf rest := List.mem_map.mpr ⟨p, hmem', rfl⟩
        rw [keysOf_cons] at hnd
        exact (List.nodup_cons.mp hnd).1 (hkk ▸ hp1)
      have hnd' : (keysOf rest).Nodup := by
        rw [keysOf_cons] at hnd
        exact (List.nodup_cons.mp hnd).2
      simp [List.lookup, beq_false_of_ne (Ne.symm hk), ih hnd' hmem']

/-- Record `H1`, 10 attendances, 2024-01-01. -/
def recR1 : EmergencyRecord := ⟨1, ⟨2024, 1, 1⟩, "H1", 10, 0, 0, 0, "", "", 0, ""⟩

/-- Record `H2`, 30 attendances, 2024-01-02. -/
def recR2 : EmergencyRecord := ⟨2, ⟨2024, 1, 2⟩, "H2", 30, 0, 0, 0, "", "", 0, ""⟩

/-- Record `H1`, 5 attendances, 2024-01-03. -/
def recR3 : EmergencyRecord := ⟨3, ⟨2024, 1, 3⟩, "H1", 5, 0, 0, 0, "", "", 0, ""⟩

/-- A store with attendances `{H1: 10, H2: 30, H1: 5}`. -/
def stRank : Store :=
  ⟨[recR1, recR2, recR3], [⟨1, "H1", true⟩, ⟨2, "H2", true⟩], 4⟩

/-- C8: the dashboard ranking is empty unless the actor is an admin with
no hospital filter; when computed, it has at most five entries sorted by
descending total, and each entry's total is the sum of `atenciones` over
the filtered records of a hospital that occurs in them; on the records
`{H1: 10, H2: 30, H1: 5}` it is `[H2 = 30, H1 = 15]`. -/
theorem dashboard_ranking_spec (st : Store) (actor : Actor) (harg : String)
    (d1 d2 : Option Date) :
    (¬(actor.is_admin = true ∧ pyStrip harg = "") →
      dashboardRanking st actor harg d1 d2 = []) ∧
    (actor.is_admin = true → pyStrip harg = "" →
      (dashboardRanking st actor harg d1 d2).length ≤ 5 ∧
      List.Sorted rankOrder (dashboardRanking st actor harg d1 d2) ∧
      (∀ p ∈ dashboardRanking st actor harg d1 d2,
        p.2 = sumAten (dashboardRegistros st actor harg d1 d2) p.1 ∧
        (dashboardRegistros st actor harg d1 d2).any
          (fun r => r.hospital == p.1) = true)) ∧
    dashboardRanking stRank adminActor "" none none =
      [("H2", 30), ("H1", 15)] := by
  refine ⟨?_, ?_, by decide⟩
  · intro hcond
    unfold dashboardRanking
    rw [if_neg hcond]
  · intro hadm hfil
    have hrank : dashboardRanking st actor harg d1 d2 =
        (List.insertionSort rankOrder
          (rankingTotales (dashboardRegistros st actor harg d1 d2) [])).take 5 := by
      unfold dashboardRanking
      rw [if_pos ⟨hadm, hfil⟩]
    refine ⟨?_, ?_, ?_⟩
    · rw [hrank]; exact List.length_take_le 5 _
    · rw [hrank]
      exact List.Pairwise.sublist (List.take_sublist 5 _)
        (List.sorted_insertionSort rankOrder _)
    · intro p hp
      rw [hrank] at hp
      have hp2 : p ∈ List.insertionSort rankOrder
          (rankingTotales (dashboardRegistros st actor harg d1 d2) []) :=
        (List.take_sublist 5 _).subset hp
      have hp3 : p ∈ rankingTotales (dashboardRegistros st actor harg d1 d2) [] :=
        (List.mem_insertionSort rankOrder).mp hp2
      have hnd : (keysOf
          (rankingTotales (dashboardRegistros st actor harg d1 d2) [])).Nodup :=
        rankingTotales_keys_nodup _ [] (by simp [keysOf])
      have hlook := lookup_eq_of_mem _ p hnd hp3
      rw [rankingTotales_lookup (dashboardRegistros st actor harg d1 d2) [] p.1]
        at hlook
      simp only [List.lookup] at hlook
      split at hlook
      · next hany =>
        exact ⟨(Option.some.injEq _ _ ▸ hlook).symm, hany⟩
      · cases hlook

/-- C8 witness: a non-admin gets no ranking, an unfiltered admin gets at
most five entries, via `dashboard_ranking_spec`. -/
theorem dashboard_ranking_spec_witness :
    dashboardRanking stRank actorUser "" none none = [] ∧
    (dashboardRanking stRank adminActor "" none none).length ≤ 5 := by
  have h1 := (dashboard_ranking_spec stRank actorUser "" none none).1 (by decide)
  have h2 := (dashboard_ranking_spec stRank adminActor "" none none).2.1
    rfl (by decide)
  exact ⟨h1, h2.1⟩

/-! ## C1: at most one record per (date, hospital) -/

/-- A duplicate-free list whose members are all equal has at most one. -/
theorem length_le_one_of_forall_eq {α : Type} (l : List α) (a : α)
    (hnd : l.Nodup) (hall : ∀ x ∈ l, x = a) : l.length ≤ 1 := by
  match l with
  | [] => simp
  | [x] => simp
  | x :: y :: rest =>
    exfalso
    have hx := hall x (by simp)
    have hy := hall y (by simp)
    rw [List.nodup_cons] at hnd
    exact hnd.1 (by rw [hx.trans hy.symm]; exact List.mem_cons_self y rest)

/-- Distinct `(fecha, hospital)` keys bound each pair's count by one. -/
theorem count_pair_le_one (rs : List EmergencyRecord)
    (hnd : (recordKeys rs).Nodup) (d : Date) (h : String) :
    (rs.filter (fun r => decide (r.fecha = d ∧ r.hospital = h))).length ≤ 1 := by
  have hsub : ((rs.filter (fun r => decide (r.fecha = d ∧ r.hospital = h))).map
      (fun r => (r.fecha, r.hospital))).Sublist (recordKeys rs) :=
    (List.filter_sublist rs).map _
  have hnd2 := List.Nodup.sublist hsub hnd
  have hall : ∀ x ∈ (rs.filter
      (fun r => decide (r.fecha = d ∧ r.hospital = h))).map
        (fun r => (r.fecha, r.hospital)), x = (d, h) := by
    intro x hx
    obtain ⟨r, hr, rfl⟩ := List.mem_map.mp hx
    have hcond := (List.mem_filter.mp hr).2
    simp only [decide_eq_true_eq] at hcond
    simp [hcond.1, hcond.2]
  have := length_le_one_of_forall_eq _ (d, h) hnd2 hall
  simpa using this

/-- `nuevo` preserves the store invariant. -/
theorem nuevo_ok_inv {st : Store} {actor : Actor} {today : Date}
    {form : RecordForm} {st' : Store} {i : Nat} (hinv : StoreInv st)
    (hok : nuevo st actor today form = NuevoResult.ok st' i) : StoreInv st' := by
  unfold nuevo at hok
  cases hf : resolveFecha form.fecha today with
  | none => simp [hf] at hok
  | some fecha =>
    cases hh : resolveHospitalNuevo st actor form with
    | none => simp [hf, hh] at hok
    | some hosp =>
      cases he : st.records.find?
          (fun r => decide (r.fecha = fecha ∧ r.hospital = hosp)) with
      | some e =>
        simp only [hf, hh, he] at hok
        cases hok
      | none =>
        simp only [hf, hh, he] at hok
        injection hok with h1 h2
        subst h1
        obtain ⟨hids, hkeys, hbound⟩ := hinv
        refine ⟨?_, ?_, ?_⟩
        · rw [List.map_append, List.nodup_append]
          refine ⟨hids, by simp, ?_⟩
          intro a ha hb
          simp only [List.map_cons, List.map_nil, List.mem_singleton] at hb
          obtain ⟨r, hr, rfl⟩ := List.mem_map.mp ha
          have := hbound r hr
          omega
        · rw [recordKeys, List.map_append, List.nodup_append]
          refine ⟨hkeys, by simp, ?_⟩
          intro k hk hk2
          simp only [List.map_cons, List.map_nil, List.mem_singleton] at hk2
          obtain ⟨r, hr, rfl⟩ := List.mem_map.mp hk
          have hnf := List.find?_eq_none.mp he r hr
          simp only [decide_eq_true_eq] at hnf
          rw [Prod.mk.injEq] at hk2
          exact hnf ⟨hk2.1, hk2.2⟩
        · intro r hr
          rcases List.mem_append.mp hr with hr1 | hr1
          · exact Nat.lt_succ_of_lt (hbound r hr1)
          · simp only [List.mem_singleton] at hr1
            subst hr1
            exact Nat.lt_succ_self _

/-- Updating the single record of id `i` to a row whose key no other
record occupies keeps the `(fecha, hospital)` keys distinct. -/
theorem nodup_keys_update (records : List EmergencyRecord) (i : Nat)
    (rec1 : EmergencyRecord)
    (hids : (records.map (fun r => r.id)).Nodup)
    (hkeys : (recordKeys records).Nodup)
    (hno : ∀ r ∈ records, r.id ≠ i →
      (r.fecha, r.hospital) ≠ (rec1.fecha, rec1.hospital)) :
    (recordKeys (records.map (fun r => if r.id = i then rec1 else r))).Nodup := by
  induction records with
  | nil => simp [recordKeys]
  | cons r rs ih =>
    simp only [List.map_cons, recordKeys, List.nodup_cons] at hids hkeys ⊢
    by_cases hri : r.id = i
    · rw [if_pos hri]
      have hnotin : ∀ r' ∈ rs, r'.id ≠ i := by
        intro r' hr' hcon
        exact hids.1 (List.mem_map.mpr ⟨r', hr', by rw [hcon, hri]⟩)
      have hmapid : rs.map (fun x => if x.id = i then rec1 else x) = rs := by
        have h2 : ∀ x ∈ rs, (if x.id = i then rec1 else x) = x :=
          fun r' hr' => if_neg (hnotin r' hr')
        exact (List.map_congr_left h2).trans (by simp)
      rw [hmapid]
      refine ⟨?_, hkeys.2⟩
      intro hmem
      obtain ⟨r', hr', hval⟩ := List.mem_map.mp hmem
      exact hno r' (List.mem_cons_of_mem r hr') (hnotin r' hr') hval
    · rw [if_neg hri]
      refine ⟨?_, ih hids.2 hkeys.2
        (fun r' h' => hno r' (List.mem_cons_of_mem r h'))⟩
      intro hmem
      obtain ⟨x, hx, hval⟩ := List.mem_map.mp hmem
      obtain ⟨r', hr', rfl⟩ := List.mem_map.mp hx
      by_cases hr'i : r'.id = i
      · rw [if_pos hr'i] at hval
        exact hno r (List.mem_cons_self r rs) hri hval.symm
      · rw [if_neg hr'i] at hval
        exact hkeys.1 (List.mem_map.mpr ⟨r', hr', hval⟩)

/-- Pointwise update of the record of id `rec0.id` to a same-id row whose
key no other record occupies preserves the store invariant. -/
theorem storeinv_update (st : Store) (rec0 recNew : EmergencyRecord)
    (hinv : StoreInv st) (hid : recNew.id = rec0.id)
    (hdup : ∀ r ∈ st.records, r.id ≠ rec0.id →
      ¬(r.fecha = recNew.fecha ∧ r.hospital = recNew.hospital)) :
    StoreInv { st with records := st.records.map (fun r => if r.id = rec0.id then recNew else r) } := by
  obtain ⟨hids, hkeys, hbound⟩ := hinv
  have hupid : ∀ r ∈ st.records,
      (if r.id = rec0.id then recNew else r).id = r.id := by
    intro r hr
    by_cases hcase : r.id = rec0.id
    · rw [if_pos hcase, hid, hcase]
    · rw [if_neg hcase]
  have hmapeq : List.map (fun r => r.id)
      (st.records.map (fun r => if r.id = rec0.id then recNew else r)) =
        st.records.map (fun r => r.id) := by
    rw [List.map_map]
    exact List.map_congr_left hupid
  refine ⟨?_, ?_, ?_⟩
  · rw [hmapeq]
    exact hids
  · apply nodup_keys_update st.records rec0.id recNew hids hkeys
    intro r hr hne hcon
    rw [Prod.mk.injEq] at hcon
    exact hdup r hr hne hcon
  · intro r hr
    obtain ⟨r', hr', rfl⟩ := List.mem_map.mp hr
    rw [hupid r' hr']
    exact hbound r' hr'

/-- `editar` preserves the store invariant. -/
theorem editar_ok_inv {st : Store} {actor : Actor} {recId : Nat}
    {form : RecordForm} {st' : Store} (hinv : StoreInv st)
    (hok : editar st actor recId form = EditarResult.ok st') : StoreInv st' := by
  unfold editar at hok
  cases hfind : st.records.find? (fun r => r.id == recId) with
  | none =>
    simp only [hfind] at hok
    cases hok
  | some rec0 =>
    by_cases hforb : actor.is_admin = false ∧ rec0.hospital ≠ actor.hospital
    · simp only [hfind, if_pos hforb] at hok
      cases hok
    · cases hf : resolveFecha form.fecha rec0.fecha with
      | none =>
        simp only [hfind, if_neg hforb, hf] at hok
        cases hok
      | some nf =>
        cases hh : resolveHospitalEditar st actor rec0 form with
        | none =>
          simp only [hfind, if_neg hforb, hf, hh] at hok
          cases hok
        | some nh =>
          cases hdup : st.records.find? (fun r =>
              decide (r.id ≠ rec0.id ∧ r.fecha = nf ∧ r.hospital = nh)) with
          | some e =>
            simp only [hfind, if_neg hforb, hf, hh, hdup] at hok
            cases hok
          | none =>
            simp only [hfind, if_neg hforb, hf, hh, hdup] at hok
            injection hok with h1
            subst h1
            apply storeinv_update st rec0 _ hinv
            · rfl
            · intro r hr hne hcon
              have hnf := List.find?_eq_none.mp hdup r hr
              simp only [decide_eq_true_eq] at hnf
              exact hnf ⟨hne, hcon.1, hcon.2⟩

/-- One handler operation preserves the store invariant. -/
theorem applyOp_inv (st : Store) (op : Op) (hinv : StoreInv st) :
    StoreInv (applyOp st op) := by
  cases op with
  | create actor today form =>
    cases hn : nuevo st actor today form <;>
      simp only [applyOp, hn] <;>
      first
        | exact nuevo_ok_inv hinv hn
        | exact hinv
  | update actor recId form =>
    cases hn : editar st actor recId form <;>
      simp only [applyOp, hn] <;>
      first
        | exact editar_ok_inv hinv hn
        | exact hinv

/-- Any operation sequence preserves the store invariant. -/
theorem applyOps_inv (ops : List Op) :
    ∀ st : Store, StoreInv st → StoreInv (applyOps st ops) := by
  induction ops with
  | nil => intro st h; exact h
  | cons op rest ih =>
    intro st h
    rw [applyOps, List.foldl_cons]
    exact ih (applyOp st op) (applyOp_inv st op h)

/-- C1: from any invariant-satisfying store, any sequence of create and
update operations through the handlers preserves the invariant, so
afterwards at most one record exists for every `(date, hospital)` pair. -/
theorem record_store_unique_pair (st : Store) (ops : List Op)
    (hinv : StoreInv st) (d : Date) (h : String) :
    StoreInv (applyOps st ops) ∧
    ((applyOps st ops).records.filter
      (fun r => decide (r.fecha = d ∧ r.hospital = h))).length ≤ 1 := by
  have h1 := applyOps_inv ops st hinv
  exact ⟨h1, count_pair_le_one _ h1.2.1 d h⟩

/-- C1 witness: a create over the occupied pair, a successful create and
an update applied to `stPrior` leave at most one record per pair. -/
theorem record_store_unique_pair_witness :
    StoreInv stPrior ∧
    ((applyOps stPrior [Op.create adminActor ⟨2024, 1, 2⟩ formDup,
        Op.create actorUser ⟨2024, 1, 2⟩ formNeg5,
        Op.update actorUser 1 formNeg5]).records.filter
      (fun r => decide (r.fecha = (⟨2024, 1, 1⟩ : Date) ∧
        r.hospital = "H1"))).length ≤ 1 := by
  have hinv : StoreInv stPrior := by
    refine ⟨?_, ?_, ?_⟩ <;> decide
  have h := record_store_unique_pair stPrior
    [Op.create adminActor ⟨2024, 1, 2⟩ formDup,
     Op.create actorUser ⟨2024, 1, 2⟩ formNeg5,
     Op.update actorUser 1 formNeg5] hinv ⟨2024, 1, 1⟩ "H1"
  exact ⟨hinv, h.2⟩

/-! ## C7: CSV export round-trip -/

/-- Parser step: an opening quote at field start. -/
theorem csvParseAux_start_quote (cs field : List Char)
    (row : List (List Char)) :
    csvParseAux CsvState.fieldStart ('"' :: cs) field row =
      csvParseAux CsvState.quoted cs field row := by
  simp [csvParseAux]

/-- Parser step: a comma at field start ends an empty field. -/
theorem csvParseAux_start_comma (cs field : List Char)
    (row : List (List Char)) :
    csvParseAux CsvState.fieldStart (',' :: cs) field row =
      csvParseAux CsvState.fieldStart cs [] (row ++ [field]) := by
  simp [csvParseAux]

/-- Parser step: `\r\n` at field start ends the row (non-blank case). -/
theorem csvParseAux_start_crlf (cs field : List Char)
    (row : List (List Char)) (h : ¬(row = [] ∧ field = [])) :
    csvParseAux CsvState.fieldStart ('\x0d' :: '\n' :: cs) field row =
      (row ++ [field]) :: csvParseAux CsvState.fieldStart cs [] [] := by
  simp [csvParseAux, h]

/-- Parser step: an ordinary character at field start. -/
theorem csvParseAux_start_char (c : Char)
    (hc : c ≠ '"' ∧ c ≠ ',' ∧ c ≠ '\x0d' ∧ c ≠ '\n')
    (cs field : List Char) (row : List (List Char)) :
    csvParseAux CsvState.fieldStart (c :: cs) field row =
      csvParseAux CsvState.unquoted cs (field ++ [c]) row := by
  simp [csvParseAux, hc.1, hc.2.1, hc.2.2.1, hc.2.2.2]

/-- Parser step: a comma in an unquoted field ends it. -/
theorem csvParseAux_unq_comma (cs field : List Char)
    (row : List (List Char)) :
    csvParseAux CsvState.unquoted (',' :: cs) field row =
      csvParseAux CsvState.fieldStart cs [] (row ++ [field]) := by
  simp [csvParseAux]

/-- Parser step: `\r\n` in an unquoted field ends the row. -/
theorem csvParseAux_unq_crlf (cs field : List Char)
    (row : List (List Char)) :
    csvParseAux CsvState.unquoted ('\x0d' :: '\n' :: cs) field row =
      (row ++ [field]) :: csvParseAux CsvState.fieldStart cs [] [] := by
  simp [csvParseAux]

/-- Parser step: an ordinary character extends an unquoted field. -/
theorem csvParseAux_unq_char (c : Char)
    (hc : c ≠ ',' ∧ c ≠ '\x0d' ∧ c ≠ '\n')
    (cs field : List Char) (row : List (List Char)) :
    csvParseAux CsvState.unquoted (c :: cs) field row =
      csvParseAux CsvState.unquoted cs (field ++ [c]) row := by
  simp [csvParseAux, hc.1, hc.2.1, hc.2.2]

/-- Parser step: a quote inside a quoted field enters the lookahead. -/
theorem csvParseAux_quoted_quote (cs field : List Char)
    (row : List (List Char)) :
    csvParseAux CsvState.quoted ('"' :: cs) field row =
      csvParseAux CsvState.quotedQ cs field row := by
  simp [csvParseAux]

/-- Parser step: any other character stays inside the quoted field. -/
theorem csvParseAux_quoted_char (c : Char) (hc : c ≠ '"')
    (cs field : List Char) (row : List (List Char)) :
    csvParseAux CsvState.quoted (c :: cs) field row =
      csvParseAux CsvState.quoted cs (field ++ [c]) row := by
  simp [csvParseAux, hc]

/-- Parser step: a doubled quote emits one quote character. -/
theorem csvParseAux_quotedQ_quote (cs field : List Char)
    (row : List (List Char)) :
    csvParseAux CsvState.quotedQ ('"' :: cs) field row =
      csvParseAux CsvState.quoted cs (field ++ ['"']) row := by
  simp [csvParseAux]

/-- Parser step: a comma after the closing quote ends the field. -/
theorem csvParseAux_quotedQ_comma (cs field : List Char)
    (row : List (List Char)) :
    csvParseAux CsvState.quotedQ (',' :: cs) field row =
      csvParseAux CsvState.fieldStart cs [] (row ++ [field]) := by
  simp [csvParseAux]

/-- Parser step: `\r\n` after the closing quote ends the row. -/
theorem csvParseAux_quotedQ_crlf (cs field : List Char)
    (row : List (List Char)) :
    csvParseAux CsvState.quotedQ ('\x0d' :: '\n' :: cs) field row =
      (row ++ [field]) :: csvParseAux CsvState.fieldStart cs [] [] := by
  simp [csvParseAux]

/-- Quote-free characterisation of an unquoted-safe field. -/
theorem csvNeedQuote_eq_false (s : List Char) (hq : csvNeedQuote s = false) :
    ∀ c ∈ s, c ≠ ',' ∧ c ≠ '"' ∧ c ≠ '\x0d' ∧ c ≠ '\n' := by
  intro c hc
  have := List.any_eq_false.mp hq c hc
  simp only [Bool.or_eq_true, decide_eq_true_eq] at this
  push_neg at this
  exact ⟨this.1.1.1, this.1.1.2, this.1.2, this.2⟩

/-- Consuming the escaped body of a quoted field up to its closing quote
accumulates exactly the original field text. -/
theorem csvParse_quoted_body (s : List Char) :
    ∀ (rest field : List Char) (row : List (List Char)),
    csvParseAux CsvState.quoted (csvEscQ s ++ '"' :: rest) field row =
      csvParseAux CsvState.quotedQ rest (field ++ s) row := by
  induction s with
  | nil =>
    intro rest field row
    simp [csvEscQ, csvParseAux_quoted_quote]
  | cons c cs ih =>
    intro rest field row
    by_cases hc : c = '"'
    · subst hc
      rw [show csvEscQ ('"' :: cs) = '"' :: '"' :: csvEscQ cs from by
          simp [csvEscQ]]
      simp only [List.cons_append]
      rw [csvParseAux_quoted_quote, csvParseAux_quotedQ_quote, ih]
      simp
    · rw [show csvEscQ (c :: cs) = c :: csvEscQ cs from by simp [csvEscQ, hc]]
      simp only [List.cons_append]
      rw [csvParseAux_quoted_char c hc, ih]
      simp

/-- Consuming quote-free ordinary text inside an unquoted field
accumulates it verbatim. -/
theorem csvParse_unquoted_body (s : List Char) :
    (∀ c ∈ s, c ≠ ',' ∧ c ≠ '"' ∧ c ≠ '\x0d' ∧ c ≠ '\n') →
    ∀ (rest field : List Char) (row : List (List Char)),
    csvParseAux CsvState.unquoted (s ++ rest) field row =
      csvParseAux CsvState.unquoted rest (field ++ s) row := by
  induction s with
  | nil => intro _ rest field row; simp
  | cons c cs ih =>
    intro hs rest field row
    have hc := hs c (List.mem_cons_self c cs)
    simp only [List.cons_append]
    rw [csvParseAux_unq_char c ⟨hc.1, hc.2.2.1, hc.2.2.2⟩,
      ih (fun x hx => hs x (List.mem_cons_of_mem c hx))]
    simp

/-- Parsing one rendered field followed by a comma appends the field to
the current row and continues at the next field start. -/
theorem csvParse_field_comma (s rest : List Char) (row : List (List Char)) :
    csvParseAux CsvState.fieldStart (csvField s ++ ',' :: rest) [] row =
      csvParseAux CsvState.fieldStart rest [] (row ++ [s]) := by
  by_cases hq : csvNeedQuote s
  · rw [csvField, if_pos hq]
    simp only [List.cons_append, List.append_assoc, List.singleton_append]
    rw [csvParseAux_start_quote, csvParse_quoted_body]
    simp [csvParseAux_quotedQ_comma]
  · rw [csvField, if_neg hq]
    have hs := csvNeedQuote_eq_false s (Bool.eq_false_iff.mpr hq)
    cases s with
    | nil => simp [csvParseAux_start_comma]
    | cons c cs =>
      have hc := hs c (List.mem_cons_self c cs)
      simp only [List.cons_append]
      rw [csvParseAux_start_char c ⟨hc.2.1, hc.1, hc.2.2.1, hc.2.2.2⟩,
        csvParse_unquoted_body cs
          (fun x hx => hs x (List.mem_cons_of_mem c hx)),
        csvParseAux_unq_comma]
      simp

/-- Parsing one rendered field followed by `\r\n` ends the row with the
field appended (requires the row not to be entirely blank, since a blank
line reads back as an empty row). -/
theorem csvParse_field_crlf (s rest : List Char) (row : List (List Char))
    (hnb : ¬(row = [] ∧ s = [])) :
    csvParseAux CsvState.fieldStart
        (csvField s ++ '\x0d' :: '\n' :: rest) [] row =
      (row ++ [s]) :: csvParseAux CsvState.fieldStart rest [] [] := by
  by_cases hq : csvNeedQuote s
  · rw [csvField, if_pos hq]
    simp only [List.cons_append, List.append_assoc, List.singleton_append]
    rw [csvParseAux_start_quote, csvParse_quoted_body]
    simp [csvParseAux_quotedQ_crlf]
  · rw [csvField, if_neg hq]
    have hs := csvNeedQuote_eq_false s (Bool.eq_false_iff.mpr hq)
    cases s with
    | nil =>
      have hrow : ¬(row = [] ∧ ([] : List Char) = []) := hnb
      simp [csvParseAux_start_crlf _ _ _ hrow]
    | cons c cs =>
      have hc := hs c (List.mem_cons_self c cs)
      simp only [List.cons_append]
      rw [csvParseAux_start_char c ⟨hc.2.1, hc.1, hc.2.2.1, hc.2.2.2⟩,
        csvParse_unquoted_body cs
          (fun x hx => hs x (List.mem_cons_of_mem c hx)),
        csvParseAux_unq_crlf]
      simp

/-- Parsing one rendered row (non-blank: its first field is non-empty or
the accumulated row is) emits exactly its fields and continues. -/
theorem csvParse_row (fs : List (List Char)) :
    fs ≠ [] → ∀ (row : List (List Char)) (rest : List Char),
    ¬(row = [] ∧ fs.headD [] = []) →
    csvParseAux CsvState.fieldStart
        (csvCells fs ++ '\x0d' :: '\n' :: rest) [] row =
      (row ++ fs) :: csvParseAux CsvState.fieldStart rest [] [] := by
  induction fs with
  | nil => intro h; exact absurd rfl h
  | cons s fs' ih =>
    intro _ row rest hnb
    cases fs' with
    | nil =>
      rw [show csvCells [s] = csvField s from rfl]
      have hnb' : ¬(row = [] ∧ s = []) := by simpa using hnb
      rw [csvParse_field_crlf s rest row hnb']
    | cons s2 fs'' =>
      rw [show csvCells (s :: s2 :: fs'') =
        csvField s ++ ',' :: csvCells (s2 :: fs'') from rfl]
      simp only [List.append_assoc, List.cons_append]
      rw [csvParse_field_comma]
      rw [ih (by simp) (row ++ [s]) rest (by simp)]
      simp

/-- Parsing a rendered file whose rows are all non-empty with non-empty
first fields recovers exactly the rows. -/
theorem csvParse_rows (rows : List (List (List Char)))
    (hr : ∀ r ∈ rows, r ≠ [] ∧ r.headD [] ≠ []) :
    csvParseAux CsvState.fieldStart (csvRows rows) [] [] = rows := by
  induction rows with
  | nil => simp [csvRows, csvParseAux]
  | cons r rs ih =>
    have h1 := hr r (List.mem_cons_self r rs)
    rw [show csvRows (r :: rs) =
      (csvCells r ++ ['\x0d', '\n']) ++ csvRows rs from rfl]
    simp only [List.append_assoc, List.cons_append, List.nil_append]
    rw [csvParse_row r h1.1 [] (csvRows rs) (by simpa using h1.2)]
    rw [ih (fun x hx => hr x (List.mem_cons_of_mem r hx))]
    simp

/-- Rebuilding a string from its characters is the identity. -/
theorem string_mk_data (s : String) : String.mk s.data = s :=
  rfl

/-- An ISO-formatted date is never the empty string. -/
theorem isoformat_data_ne_nil (d : Date) : d.isoformat.data ≠ [] := by
  show padChars 4 d.year ++ '-' ::
    (padChars 2 d.month ++ '-' :: padChars 2 d.day) ≠ []
  simp

/-- Splitting strings into characters and rebuilding them is the
identity on a list of strings. -/
theorem map_mk_map_data (l : List String) :
    (l.map (fun s => s.data)).map (fun f => String.mk f) = l := by
  rw [List.map_map]
  have h : ∀ s ∈ l, ((fun f => String.mk f) ∘ fun s => s.data) s = id s :=
    fun s _ => rfl
  rw [List.map_congr_left h, List.map_id]

/-- C7 (amended): the CSV export body starts with the UTF-8 byte-order
mark and parses back to the header row followed by one `to_row` row per
record in order — fixed column order, ISO dates — where only the
`eventualidades` (incident notes) field is normalised: its carriage
returns become spaces and it is stripped; embedded `\n` newlines in text
fields are preserved through CSV quoting, not replaced by spaces. -/
theorem csv_export_roundtrip (registros : List EmergencyRecord) :
    (csvOutput registros).data.head? = some '﻿' ∧
    csvParseString (stripBom (csvOutput registros)) =
      csvHeaders :: registros.map EmergencyRecord.to_row := by
  constructor
  · rfl
  · have h1 : stripBom (csvOutput registros) =
        String.mk (csvRows (csvHeaders.map (fun s => s.data)
          :: registros.map (fun r => r.to_row.map (fun s => s.data)))) := rfl
    rw [h1, csvParseString]
    rw [show (String.mk (csvRows (csvHeaders.map (fun s => s.data)
      :: registros.map (fun r => r.to_row.map (fun s => s.data))))).data =
        csvRows (csvHeaders.map (fun s => s.data)
          :: registros.map (fun r => r.to_row.map (fun s => s.data)))
      from rfl]
    rw [csvParse_rows]
    · rw [List.map_cons, map_mk_map_data, List.map_map]
      have h2 : ∀ r ∈ registros,
          ((fun row => row.map (fun f => String.mk f)) ∘
            (fun r => r.to_row.map (fun s => s.data))) r =
          EmergencyRecord.to_row r :=
        fun r _ => map_mk_map_data r.to_row
      rw [List.map_congr_left h2]
    · intro rw0 hrw
      rcases List.mem_cons.mp hrw with h | h
      · subst h
        exact ⟨by decide, by decide⟩
      · obtain ⟨r, _, rfl⟩ := List.mem_map.mp h
        constructor
        · simp [EmergencyRecord.to_row]
        · rw [show r.to_row.map (fun s => s.data) =
            r.fecha.isoformat.data :: (r.to_row.tail.map (fun s => s.data))
            from rfl]
          simpa using isoformat_data_ne_nil r.fecha

/-- A record whose incident notes contain an embedded newline. -/
def recNL : EmergencyRecord :=
  ⟨1, ⟨2024, 1, 1⟩, "H1", 1, 0, 0, 0, "", "", 0, "a\nb"⟩

set_option maxRecDepth 4000 in
/-- C7 counterexample: exporting `recNL` and parsing the file back yields
the incident-notes field with its newline intact (`"a\nb"`), not
normalised to a space as the claim states. -/
theorem csv_newline_not_normalized :
    ((csvParseString (stripBom (csvOutput [recNL]))).getD 1 []).getD 9 ""
        = "a\nb" ∧
      ("a\nb" : String) ≠ "a b" := by
  constructor
  · decide
  · decide
